import Mathlib

/-!
Shallow embedding of the Krishitej Agrosmartapp front-end component
(`src/App.tsx` together with the `WeatherData` shape from `types.ts`).

The component is a single-threaded, event-driven state machine:

* a debounced location resolver (the `useEffect` on `locationText`,
  App.tsx lines 27-49) that cancels any pending `setTimeout` handle,
  suppresses resolution for short queries, and otherwise schedules a
  1.5-second (1500 ms) timer whose callback issues one
  `fetchLocationData` request;
* two one-shot action handlers, `handleGetCropAdvice` (lines 94-107)
  and `handleImageAnalysis` (lines 78-92), gated by the shared
  `isLoading` flag through the buttons' `disabled={isLoading}`
  attribute;
* the voice toggle `handleToggleVoice` (lines 59-67) and the final
  voice callback `handleFinalVoiceResponse` (lines 52-55), which also
  write the shared `result` slot and `isLoading` flag.

Time is modelled in milliseconds (`Nat`); 1.5 time units = 1500 ms.
Events carry the instant at which the event-loop callback runs; a step
is valid only if time is monotone and no live timer is overdue (the
event loop never runs a later callback past a timer that was due
first).  JavaScript `setTimeout` handles are modelled as fresh `Nat`
identifiers; the environment's set of live timers is kept explicitly in
the state, so "at most one timer is live" is a provable invariant of
the code rather than an assumption of the model.
-/

namespace AgroSmart

/-- Mirrors `WeatherData.current` from `types.ts`. -/
structure CurrentConditions where
  temperature : Int
  rainfall : Int
deriving DecidableEq, Repr

/-- Mirrors `WeatherData.forecast` from `types.ts`. -/
structure ForecastConditions where
  maxTemp : Int
  minTemp : Int
  rainfall : Int
deriving DecidableEq, Repr

/-- Mirrors the `WeatherData` interface from `types.ts`. -/
structure WeatherData where
  soilType : String
  current : CurrentConditions
  forecast : ForecastConditions
deriving DecidableEq, Repr

/-- A value thrown by a failing service call: either a JavaScript
`Error` object carrying a `message` string (possibly empty), or any
other thrown value, which has no `message` property.  This is what the
`error instanceof Error` tests in the handlers distinguish. -/
inductive JSError where
  | errObj (message : String)
  | nonError
deriving DecidableEq, Repr

/-- A live `setTimeout` timer in the browser environment: its handle,
the instant at which it fires, and the `locationText` value captured by
the scheduled closure (App.tsx line 34-36). -/
structure TimerEntry where
  id : Nat
  fireAt : Nat
  query : String
deriving DecidableEq, Repr

/-- Log entry for an issued `fetchLocationData` request: the handle of
the timer whose callback issued it, the instant of issue, and the query
string passed to the service. -/
structure IssuedRequest where
  timerId : Nat
  time : Nat
  query : String
deriving DecidableEq, Repr

/-- An in-flight `fetchLocationData` request, identified by the timer
whose callback awaits it. -/
structure WeatherRequest where
  timerId : Nat
  query : String
deriving DecidableEq, Repr

/-- Embeds the JavaScript `locationText.trim().length` test.  JS
`String.prototype.trim` strips leading and trailing whitespace. -/
def trimmedLength (s : String) : Nat :=
  ((s.data.dropWhile Char.isWhitespace).reverse.dropWhile Char.isWhitespace).reverse.length

/-- The full state of the `App` component plus the browser environment
it owns (live timers, in-flight requests, issue log).  Fields named as
in `App.tsx`; `now` is the event-loop clock, `issued` the log of
`fetchLocationData` calls actually made. -/
structure AppState where
  now : Nat
  locationText : String
  imageFile : Option String
  result : Option String
  isLoading : Bool
  weatherData : Option WeatherData
  isFetchingWeather : Bool
  timers : List TimerEntry
  timeoutRef : Option Nat
  nextTimerId : Nat
  weatherInFlight : List WeatherRequest
  issued : List IssuedRequest
  adviceInFlight : Nat
  photoInFlight : Nat
  isSessionActive : Bool
  isConnecting : Bool
  voiceArmed : Bool
  language : String
deriving DecidableEq, Repr

/-- The component state at mount: all of the `useState` initialisers of
`App.tsx` (lines 13-25), an empty timer environment, and no requests.
The mount-time effect run takes the `else` branch for the empty query
and leaves this state unchanged. -/
def initState : AppState where
  now := 0
  locationText := ""
  imageFile := none
  result := none
  isLoading := false
  weatherData := none
  isFetchingWeather := false
  timers := []
  timeoutRef := none
  nextTimerId := 0
  weatherInFlight := []
  issued := []
  adviceInFlight := 0
  photoInFlight := 0
  isSessionActive := false
  isConnecting := false
  voiceArmed := false
  language := "en"

/-- The events the component reacts to.  `queryChange` is a keystroke
in the location input (re-render plus effect run); `timerFire` is the
debounce timer's callback; `weatherResponse` the settlement of an
in-flight `fetchLocationData` promise; `clickAdvice` / `clickPhoto`
are clicks on the two one-shot buttons; `adviceComplete` /
`photoComplete` the settlement of those requests; the voice events
model the external voice-session service of spec section 6. -/
inductive UIEvent where
  | queryChange (v : String)
  | timerFire (id : Nat)
  | weatherResponse (id : Nat) (outcome : Except JSError WeatherData)
  | clickAdvice
  | clickPhoto
  | adviceComplete (outcome : Except JSError String)
  | photoComplete (outcome : Except JSError String)
  | selectImage (f : Option String)
  | clickVoiceToggle
  | voiceConnected
  | voiceFinalResponse (msg : String)
  | changeLanguage (l : String)
deriving Repr

/-- The `clearTimeout` prologue of the effect (App.tsx lines 28-30):
the timer whose handle sits in `debounceTimeoutRef` leaves the
environment; any other timer would survive. -/
def clearDebounce (s : AppState) : List TimerEntry :=
  match s.timeoutRef with
  | some ref => s.timers.filter (fun tm => tm.id ≠ ref)
  | none => s.timers

/-- The `useEffect` on `[locationText]` (App.tsx lines 27-49), run when
the input's value changes.  React bails out of the re-render when the
new value equals the current one (`Object.is` check of `setState`), so
an equal value leaves the state untouched.  Otherwise: clear the timer
held in `debounceTimeoutRef` (lines 28-30); if the trimmed length
exceeds 3, set the fetching flag, clear the weather record and schedule
a fresh 1500 ms timer capturing the new `locationText` (lines 31-44);
else clear both the record and the flag (lines 45-48). -/
def onQueryChange (s : AppState) (v : String) : AppState :=
  if v = s.locationText then s
  else if 3 < trimmedLength v then
    { s with locationText := v
             isFetchingWeather := true
             weatherData := none
             timers := clearDebounce s ++ [⟨s.nextTimerId, s.now + 1500, v⟩]
             timeoutRef := some s.nextTimerId
             nextTimerId := s.nextTimerId + 1 }
  else
    { s with locationText := v
             weatherData := none
             isFetchingWeather := false
             timers := clearDebounce s }

/-- The debounce timer's callback firing (App.tsx line 34): the timer
leaves the environment and `fetchLocationData` is called with the
captured query, putting one request in flight and logging the issue. -/
def fireTimer (s : AppState) (tm : TimerEntry) : AppState :=
  { s with timers := s.timers.filter (fun x => x.id ≠ tm.id)
           weatherInFlight := s.weatherInFlight ++ [⟨tm.id, tm.query⟩]
           issued := s.issued ++ [⟨tm.id, s.now, tm.query⟩] }

/-- Settlement of an in-flight `fetchLocationData` promise (App.tsx
lines 35-43): on success `setWeatherData(data)`; on failure only
`console.error` (the record is not touched); in both cases the
`finally` block runs `setIsFetchingWeather(false)`. -/
def onWeatherResponse (s : AppState) (id : Nat)
    (outcome : Except JSError WeatherData) : AppState :=
  let s' := { s with weatherInFlight := s.weatherInFlight.filter (fun r => r.timerId ≠ id) }
  match outcome with
  | .ok data => { s' with weatherData := some data, isFetchingWeather := false }
  | .error _ => { s' with isFetchingWeather := false }

/-- A click on the advice button.  The button carries
`disabled={isLoading}` (App.tsx line 173), so a click while loading is
not delivered; `handleGetCropAdvice` (lines 94-107) then returns at
once when `weatherData` is null, and otherwise clears the result slot,
sets the loading flag and calls `generateCropAdvice`. -/
def onClickAdvice (s : AppState) : AppState :=
  if s.isLoading then s
  else if s.weatherData = none then s
  else { s with result := none, isLoading := true, adviceInFlight := s.adviceInFlight + 1 }

/-- A click on the analyse button (`disabled={isLoading}`, App.tsx line
204).  `handleImageAnalysis` (lines 78-92) returns at once when no
image file is selected, and otherwise clears the result slot, sets the
loading flag and starts the encode-and-analyse request. -/
def onClickPhoto (s : AppState) : AppState :=
  if s.isLoading then s
  else if s.imageFile = none then s
  else { s with result := none, isLoading := true, photoInFlight := s.photoInFlight + 1 }

/-- Embeds `error instanceof Error ? error.message : t('unknownError')`
(App.tsx lines 87 and 102).  `tr` is the translation function `t`,
keyed by language then by key. -/
def errorMessageOf (tr : String → String → String) (lang : String) (e : JSError) : String :=
  match e with
  | .errObj m => m
  | .nonError => tr lang "unknownError"

/-- Embeds the template literal of App.tsx lines 88 and 103:
a localized category label, a space and newline, the localized
`details` label, a colon-space, then the error message. -/
def formatActionError (tr : String → String → String) (lang : String)
    (categoryKey : String) (e : JSError) : String :=
  tr lang categoryKey ++ " \n" ++ tr lang "details" ++ ": " ++ errorMessageOf tr lang e

/-- Settlement of a `generateCropAdvice` call (App.tsx lines 98-106):
on success the response becomes the result; on failure the formatted
`adviceError` string does; the `finally` block clears the loading
flag. -/
def onAdviceComplete (tr : String → String → String) (s : AppState)
    (outcome : Except JSError String) : AppState :=
  let s' := { s with adviceInFlight := s.adviceInFlight - 1 }
  match outcome with
  | .ok resp => { s' with result := some resp, isLoading := false }
  | .error e =>
      { s' with result := some (formatActionError tr s.language "adviceError" e)
                isLoading := false }

/-- Settlement of the encode-and-analyse flow of `handleImageAnalysis`
(App.tsx lines 82-91): a rejection of either `fileToBase64` or
`generatePhotoAnalysis` lands in the same catch block, formatted with
the `photoError` label. -/
def onPhotoComplete (tr : String → String → String) (s : AppState)
    (outcome : Except JSError String) : AppState :=
  let s' := { s with photoInFlight := s.photoInFlight - 1 }
  match outcome with
  | .ok resp => { s' with result := some resp, isLoading := false }
  | .error e =>
      { s' with result := some (formatActionError tr s.language "photoError" e)
                isLoading := false }

/-- A click on the voice toggle (`disabled={isConnecting}`, App.tsx
line 187).  `handleToggleVoice` (lines 59-67) stops the session when
one is active, and otherwise clears the result slot, sets the loading
flag and starts a session.  The session internals (`useVoiceInteraction`)
are not part of `src/`; modelled from the spec (section 6): `startSession`
begins connecting and arms one asynchronous final-response callback,
`stopSession` ends the active session. -/
def onClickVoiceToggle (s : AppState) : AppState :=
  if s.isConnecting then s
  else if s.isSessionActive then { s with isSessionActive := false }
  else { s with result := none, isLoading := true, isConnecting := true, voiceArmed := true }

/-- `handleFinalVoiceResponse` (App.tsx lines 52-55): the armed voice
callback delivers the final response, writing the result slot and
clearing the loading flag. -/
def onVoiceFinalResponse (s : AppState) (msg : String) : AppState :=
  { s with result := some msg, isLoading := false, voiceArmed := false }

/-- Dispatch of a single event at the instant `t`, assuming the
validity guard already passed and `now` has been advanced to `t`. -/
def stepCore (tr : String → String → String) (s : AppState) : UIEvent → Option AppState
  | .queryChange v => some (onQueryChange s v)
  | .timerFire id =>
      match s.timers.find? (fun tm => tm.id = id) with
      | some tm => if tm.fireAt = s.now then some (fireTimer s tm) else none
      | none => none
  | .weatherResponse id outcome =>
      if s.weatherInFlight.any (fun r => r.timerId = id) then
        some (onWeatherResponse s id outcome)
      else none
  | .clickAdvice => some (onClickAdvice s)
  | .clickPhoto => some (onClickPhoto s)
  | .adviceComplete outcome =>
      if s.adviceInFlight ≠ 0 then some (onAdviceComplete tr s outcome) else none
  | .photoComplete outcome =>
      if s.photoInFlight ≠ 0 then some (onPhotoComplete tr s outcome) else none
  | .selectImage f => some { s with imageFile := f }
  | .clickVoiceToggle => some (onClickVoiceToggle s)
  | .voiceConnected =>
      if s.isConnecting then some { s with isConnecting := false, isSessionActive := true }
      else none
  | .voiceFinalResponse msg =>
      if s.voiceArmed then some (onVoiceFinalResponse s msg) else none
  | .changeLanguage l => some { s with language := l }

/-- One step of the event loop: the event's callback runs at instant
`t`.  Valid only if time is monotone and no live timer is overdue at
`t` (a due timer's callback runs before any later event). -/
def step (tr : String → String → String) (s : AppState) (t : Nat) (e : UIEvent) :
    Option AppState :=
  if s.now ≤ t ∧ ∀ tm ∈ s.timers, t ≤ tm.fireAt then
    stepCore tr { s with now := t } e
  else none

/-- Run a list of timestamped events from a given state; `none` when
some event is invalid at its instant. -/
def runFrom (tr : String → String → String) (s : AppState) :
    List (Nat × UIEvent) → Option AppState
  | [] => some s
  | (t, e) :: es =>
      match step tr s t e with
      | some s' => runFrom tr s' es
      | none => none

/-- Run a list of timestamped events from the mounted component. -/
def run (tr : String → String → String) (es : List (Nat × UIEvent)) : Option AppState :=
  runFrom tr initState es

/-- A sample translation table: every key translates to itself. -/
def idTr : String → String → String := fun _ key => key

/-- The concrete success payload named by the spec's test property:
soilType "loam", current temperature 20 and rainfall 5, forecast max 28,
min 15, rainfall 2. -/
def loamPayload : WeatherData :=
  { soilType := "loam"
    current := { temperature := 20, rainfall := 5 }
    forecast := { maxTemp := 28, minTemp := 15, rainfall := 2 } }

/-- Timer-ownership invariant of the resolver: the environment holds at
most one live timer; when one is live, `debounceTimeoutRef` holds its
handle, its captured query is the current `locationText`, its handle is
fresh with respect to the issue log and the in-flight requests, and all
handles ever allocated are below `nextTimerId`. -/
def TimerInv (s : AppState) : Prop :=
  s.timers = [] ∨
    ∃ tm, s.timers = [tm] ∧ s.timeoutRef = some tm.id ∧
      tm.query = s.locationText ∧ tm.id < s.nextTimerId ∧
      (∀ r ∈ s.issued, r.timerId ≠ tm.id) ∧
      (∀ w ∈ s.weatherInFlight, w.timerId ≠ tm.id)

/-- Handle freshness: every handle recorded in the issue log or among
the in-flight requests was allocated before `nextTimerId`. -/
def IdInv (s : AppState) : Prop :=
  (∀ r ∈ s.issued, r.timerId < s.nextTimerId) ∧
  (∀ w ∈ s.weatherInFlight, w.timerId < s.nextTimerId)

/-- The reachable-state invariant of the component. -/
def Inv (s : AppState) : Prop := TimerInv s ∧ IdInv s

theorem inv_initState : Inv initState := by
  constructor
  · exact Or.inl rfl
  · exact ⟨by intro r hr; simp [initState] at hr, by intro w hw; simp [initState] at hw⟩

theorem mem_clearDebounce {s : AppState} {tm : TimerEntry} (h : tm ∈ clearDebounce s) :
    tm ∈ s.timers := by
  unfold clearDebounce at h
  split at h
  · exact (List.mem_filter.mp h).1
  · exact h

theorem clearDebounce_eq_nil {s : AppState} (h : TimerInv s) : clearDebounce s = [] := by
  unfold clearDebounce
  rcases h with h0 | ⟨tm, h1, h2, _⟩
  · rw [h0]; cases s.timeoutRef <;> simp
  · rw [h1, h2]; simp

theorem inv_onQueryChange {s : AppState} (h : Inv s) (v : String) :
    Inv (onQueryChange s v) := by
  obtain ⟨htm, hiss, hifl⟩ := h
  unfold onQueryChange
  split
  · exact ⟨htm, hiss, hifl⟩
  · rw [clearDebounce_eq_nil htm]
    split
    · refine ⟨Or.inr ⟨⟨s.nextTimerId, s.now + 1500, v⟩, by simp, by simp, by simp, by simp, ?_, ?_⟩, ?_, ?_⟩
      · intro r hr
        simp only [AppState.issued] at hr ⊢
        exact Nat.ne_of_lt (hiss r hr)
      · intro w hw
        simp only [AppState.weatherInFlight] at hw ⊢
        exact Nat.ne_of_lt (hifl w hw)
      · intro r hr
        simp only [AppState.issued, AppState.nextTimerId] at hr ⊢
        exact Nat.lt_succ_of_lt (hiss r hr)
      · intro w hw
        simp only [AppState.weatherInFlight, AppState.nextTimerId] at hw ⊢
        exact Nat.lt_succ_of_lt (hifl w hw)
    · exact ⟨Or.inl (by simp), by simpa using hiss, by simpa using hifl⟩

theorem inv_fireTimer {s : AppState} {tm : TimerEntry} (h : Inv s) (hmem : tm ∈ s.timers) :
    Inv (fireTimer s tm) := by
  obtain ⟨htm, hiss, hifl⟩ := h
  rcases htm with h0 | ⟨tm0, h1, _, _, hlt, _, _⟩
  · rw [h0] at hmem; simp at hmem
  · rw [h1] at hmem
    simp only [List.mem_singleton] at hmem
    subst hmem
    unfold fireTimer
    refine ⟨Or.inl ?_, ?_, ?_⟩
    · rw [h1]; simp
    · intro r hr
      simp only [AppState.issued, List.mem_append, List.mem_singleton] at hr
      rcases hr with hr | hr
      · exact hiss r hr
      · subst hr; exact hlt
    · intro w hw
      simp only [AppState.weatherInFlight, List.mem_append, List.mem_singleton] at hw
      rcases hw with hw | hw
      · exact hifl w hw
      · subst hw; exact hlt

theorem inv_onWeatherResponse {s : AppState} (h : Inv s) (id : Nat)
    (outcome : Except JSError WeatherData) :
    Inv (onWeatherResponse s id outcome) := by
  obtain ⟨htm, hiss, hifl⟩ := h
  have hsub : ∀ w ∈ s.weatherInFlight.filter (fun r => r.timerId ≠ id), w ∈ s.weatherInFlight := by
    intro w hw; exact (List.mem_filter.mp hw).1
  unfold onWeatherResponse
  cases outcome with
  | ok data =>
      refine ⟨?_, ?_, ?_⟩
      · rcases htm with h0 | ⟨tm, h1, h2, h3, h4, h5, h6⟩
        · exact Or.inl h0
        · exact Or.inr ⟨tm, h1, h2, h3, h4, h5, fun w hw => h6 w (hsub w hw)⟩
      · exact hiss
      · intro w hw; exact hifl w (hsub w hw)
  | error e =>
      refine ⟨?_, ?_, ?_⟩
      · rcases htm with h0 | ⟨tm, h1, h2, h3, h4, h5, h6⟩
        · exact Or.inl h0
        · exact Or.inr ⟨tm, h1, h2, h3, h4, h5, fun w hw => h6 w (hsub w hw)⟩
      · exact hiss
      · intro w hw; exact hifl w (hsub w hw)

/-- `Inv` only looks at fields the clock update leaves untouched. -/
theorem inv_setNow {s : AppState} (h : Inv s) (t : Nat) : Inv { s with now := t } := by
  obtain ⟨htm, hiss, hifl⟩ := h
  exact ⟨htm, hiss, hifl⟩

theorem inv_stepCore {tr : String → String → String} {s s' : AppState} {e : UIEvent}
    (h : Inv s) (hstep : stepCore tr s e = some s') : Inv s' := by
  cases e with
  | queryChange v =>
      simp only [stepCore, Option.some.injEq] at hstep
      exact hstep ▸ inv_onQueryChange h v
  | timerFire id =>
      simp only [stepCore] at hstep
      cases hfind : s.timers.find? (fun tm => tm.id = id) with
      | none => rw [hfind] at hstep; exact absurd hstep (by simp)
      | some tm =>
          rw [hfind] at hstep
          dsimp only at hstep
          by_cases hfa : tm.fireAt = s.now
          · rw [if_pos hfa] at hstep
            exact (Option.some.inj hstep) ▸ inv_fireTimer h (List.mem_of_find?_eq_some hfind)
          · rw [if_neg hfa] at hstep
            exact absurd hstep (by simp)
  | weatherResponse id outcome =>
      simp only [stepCore] at hstep
      split at hstep
      · simp only [Option.some.injEq] at hstep
        exact hstep ▸ inv_onWeatherResponse h id outcome
      · exact absurd hstep (by simp)
  | clickAdvice =>
      simp only [stepCore, Option.some.injEq] at hstep
      obtain ⟨htm, hiss, hifl⟩ := h
      subst hstep
      unfold onClickAdvice
      split
      · exact ⟨htm, hiss, hifl⟩
      · split
        · exact ⟨htm, hiss, hifl⟩
        · exact ⟨htm, hiss, hifl⟩
  | clickPhoto =>
      simp only [stepCore, Option.some.injEq] at hstep
      obtain ⟨htm, hiss, hifl⟩ := h
      subst hstep
      unfold onClickPhoto
      split
      · exact ⟨htm, hiss, hifl⟩
      · split
        · exact ⟨htm, hiss, hifl⟩
        · exact ⟨htm, hiss, hifl⟩
  | adviceComplete outcome =>
      simp only [stepCore] at hstep
      split at hstep
      · simp only [Option.some.injEq] at hstep
        obtain ⟨htm, hiss, hifl⟩ := h
        subst hstep
        unfold onAdviceComplete
        cases outcome <;> exact ⟨htm, hiss, hifl⟩
      · exact absurd hstep (by simp)
  | photoComplete outcome =>
      simp only [stepCore] at hstep
      split at hstep
      · simp only [Option.some.injEq] at hstep
        obtain ⟨htm, hiss, hifl⟩ := h
        subst hstep
        unfold onPhotoComplete
        cases outcome <;> exact ⟨htm, hiss, hifl⟩
      · exact absurd hstep (by simp)
  | selectImage f =>
      simp only [stepCore, Option.some.injEq] at hstep
      obtain ⟨htm, hiss, hifl⟩ := h
      exact hstep ▸ ⟨htm, hiss, hifl⟩
  | clickVoiceToggle =>
      simp only [stepCore, Option.some.injEq] at hstep
      obtain ⟨htm, hiss, hifl⟩ := h
      subst hstep
      unfold onClickVoiceToggle
      split
      · exact ⟨htm, hiss, hifl⟩
      · split
        · exact ⟨htm, hiss, hifl⟩
        · exact ⟨htm, hiss, hifl⟩
  | voiceConnected =>
      simp only [stepCore] at hstep
      split at hstep
      · simp only [Option.some.injEq] at hstep
        obtain ⟨htm, hiss, hifl⟩ := h
        exact hstep ▸ ⟨htm, hiss, hifl⟩
      · exact absurd hstep (by simp)
  | voiceFinalResponse msg =>
      simp only [stepCore] at hstep
      split at hstep
      · simp only [Option.some.injEq] at hstep
        obtain ⟨htm, hiss, hifl⟩ := h
        subst hstep
        unfold onVoiceFinalResponse
        exact ⟨htm, hiss, hifl⟩
      · exact absurd hstep (by simp)
  | changeLanguage l =>
      simp only [stepCore, Option.some.injEq] at hstep
      obtain ⟨htm, hiss, hifl⟩ := h
      exact hstep ▸ ⟨htm, hiss, hifl⟩

theorem inv_step {tr : String → String → String} {s s' : AppState} {t : Nat} {e : UIEvent}
    (h : Inv s) (hstep : step tr s t e = some s') : Inv s' := by
  unfold step at hstep
  split at hstep
  · exact inv_stepCore (inv_setNow h t) hstep
  · exact absurd hstep (by simp)

theorem inv_runFrom {tr : String → String → String} :
    ∀ {es : List (Nat × UIEvent)} {s s' : AppState},
      Inv s → runFrom tr s es = some s' → Inv s'
  | [], s, s', h, hr => by
      simp only [runFrom, Option.some.injEq] at hr
      exact hr ▸ h
  | (t, e) :: es, s, s', h, hr => by
      simp only [runFrom] at hr
      cases hstep : step tr s t e with
      | none => rw [hstep] at hr; exact absurd hr (by simp)
      | some s1 =>
          rw [hstep] at hr
          exact inv_runFrom (inv_step h hstep) hr

theorem inv_run {tr : String → String → String} {es : List (Nat × UIEvent)} {s : AppState}
    (h : run tr es = some s) : Inv s :=
  inv_runFrom inv_initState h

/-- Handle `k` is dead: it will never be allocated again (it is below
`nextTimerId`), no live timer holds it, and no issued or in-flight
request was made on its behalf.  Once a timer's handle is dead, no
`fetchLocationData` request tied to it can ever be issued. -/
def HandleDead (k : Nat) (s : AppState) : Prop :=
  k < s.nextTimerId ∧
  (∀ tm ∈ s.timers, tm.id ≠ k) ∧
  (∀ r ∈ s.issued, r.timerId ≠ k) ∧
  (∀ w ∈ s.weatherInFlight, w.timerId ≠ k)

theorem handleDead_onQueryChange {k : Nat} {s : AppState} (h : HandleDead k s) (v : String) :
    HandleDead k (onQueryChange s v) := by
  obtain ⟨hlt, htm, hiss, hifl⟩ := h
  have hclr : ∀ tm ∈ clearDebounce s, tm.id ≠ k :=
    fun tm hmem => htm tm (mem_clearDebounce hmem)
  unfold onQueryChange
  split
  · exact ⟨hlt, htm, hiss, hifl⟩
  · split
    · refine ⟨Nat.lt_succ_of_lt hlt, ?_, hiss, hifl⟩
      intro tm hmem
      simp only [AppState.timers, List.mem_append, List.mem_singleton] at hmem
      rcases hmem with hmem | hmem
      · exact hclr tm hmem
      · subst hmem; exact Nat.ne_of_gt hlt
    · exact ⟨hlt, fun tm hmem => hclr tm hmem, hiss, hifl⟩

theorem handleDead_fireTimer {k : Nat} {s : AppState} {tm : TimerEntry}
    (h : HandleDead k s) (hmem : tm ∈ s.timers) : HandleDead k (fireTimer s tm) := by
  obtain ⟨hlt, htm, hiss, hifl⟩ := h
  unfold fireTimer
  refine ⟨hlt, ?_, ?_, ?_⟩
  · intro x hx
    exact htm x (List.mem_filter.mp hx).1
  · intro r hr
    simp only [AppState.issued, List.mem_append, List.mem_singleton] at hr
    rcases hr with hr | hr
    · exact hiss r hr
    · subst hr; exact htm tm hmem
  · intro w hw
    simp only [AppState.weatherInFlight, List.mem_append, List.mem_singleton] at hw
    rcases hw with hw | hw
    · exact hifl w hw
    · subst hw; exact htm tm hmem

theorem handleDead_onWeatherResponse {k : Nat} {s : AppState} (h : HandleDead k s)
    (id : Nat) (outcome : Except JSError WeatherData) :
    HandleDead k (onWeatherResponse s id outcome) := by
  obtain ⟨hlt, htm, hiss, hifl⟩ := h
  have hsub : ∀ w ∈ s.weatherInFlight.filter (fun r => r.timerId ≠ id), w.timerId ≠ k := by
    intro w hw; exact hifl w (List.mem_filter.mp hw).1
  unfold onWeatherResponse
  cases outcome with
  | ok data => exact ⟨hlt, htm, hiss, hsub⟩
  | error e => exact ⟨hlt, htm, hiss, hsub⟩

theorem handleDead_stepCore {tr : String → String → String} {k : Nat} {s s' : AppState}
    {e : UIEvent} (h : HandleDead k s) (hstep : stepCore tr s e = some s') : HandleDead k s' := by
  cases e with
  | queryChange v =>
      simp only [stepCore, Option.some.injEq] at hstep
      exact hstep ▸ handleDead_onQueryChange h v
  | timerFire id =>
      simp only [stepCore] at hstep
      cases hfind : s.timers.find? (fun tm => tm.id = id) with
      | none => rw [hfind] at hstep; exact absurd hstep (by simp)
      | some tm =>
          rw [hfind] at hstep
          dsimp only at hstep
          by_cases hfa : tm.fireAt = s.now
          · rw [if_pos hfa] at hstep
            exact (Option.some.inj hstep) ▸
              handleDead_fireTimer h (List.mem_of_find?_eq_some hfind)
          · rw [if_neg hfa] at hstep
            exact absurd hstep (by simp)
  | weatherResponse id outcome =>
      simp only [stepCore] at hstep
      split at hstep
      · exact (Option.some.inj hstep) ▸ handleDead_onWeatherResponse h id outcome
      · exact absurd hstep (by simp)
  | clickAdvice =>
      simp only [stepCore, Option.some.injEq] at hstep
      obtain ⟨hlt, htm, hiss, hifl⟩ := h
      subst hstep
      unfold onClickAdvice
      split
      · exact ⟨hlt, htm, hiss, hifl⟩
      · split
        · exact ⟨hlt, htm, hiss, hifl⟩
        · exact ⟨hlt, htm, hiss, hifl⟩
  | clickPhoto =>
      simp only [stepCore, Option.some.injEq] at hstep
      obtain ⟨hlt, htm, hiss, hifl⟩ := h
      subst hstep
      unfold onClickPhoto
      split
      · exact ⟨hlt, htm, hiss, hifl⟩
      · split
        · exact ⟨hlt, htm, hiss, hifl⟩
        · exact ⟨hlt, htm, hiss, hifl⟩
  | adviceComplete outcome =>
      simp only [stepCore] at hstep
      split at hstep
      · obtain ⟨hlt, htm, hiss, hifl⟩ := h
        have := Option.some.inj hstep
        subst this
        unfold onAdviceComplete
        cases outcome <;> exact ⟨hlt, htm, hiss, hifl⟩
      · exact absurd hstep (by simp)
  | photoComplete outcome =>
      simp only [stepCore] at hstep
      split at hstep
      · obtain ⟨hlt, htm, hiss, hifl⟩ := h
        have := Option.some.inj hstep
        subst this
        unfold onPhotoComplete
        cases outcome <;> exact ⟨hlt, htm, hiss, hifl⟩
      · exact absurd hstep (by simp)
  | selectImage f =>
      simp only [stepCore, Option.some.injEq] at hstep
      obtain ⟨hlt, htm, hiss, hifl⟩ := h
      exact hstep ▸ ⟨hlt, htm, hiss, hifl⟩
  | clickVoiceToggle =>
      simp only [stepCore, Option.some.injEq] at hstep
      obtain ⟨hlt, htm, hiss, hifl⟩ := h
      subst hstep
      unfold onClickVoiceToggle
      split
      · exact ⟨hlt, htm, hiss, hifl⟩
      · split
        · exact ⟨hlt, htm, hiss, hifl⟩
        · exact ⟨hlt, htm, hiss, hifl⟩
  | voiceConnected =>
      simp only [stepCore] at hstep
      split at hstep
      · obtain ⟨hlt, htm, hiss, hifl⟩ := h
        exact (Option.some.inj hstep) ▸ ⟨hlt, htm, hiss, hifl⟩
      · exact absurd hstep (by simp)
  | voiceFinalResponse msg =>
      simp only [stepCore] at hstep
      split at hstep
      · obtain ⟨hlt, htm, hiss, hifl⟩ := h
        have := Option.some.inj hstep
        subst this
        unfold onVoiceFinalResponse
        exact ⟨hlt, htm, hiss, hifl⟩
      · exact absurd hstep (by simp)
  | changeLanguage l =>
      simp only [stepCore, Option.some.injEq] at hstep
      obtain ⟨hlt, htm, hiss, hifl⟩ := h
      exact hstep ▸ ⟨hlt, htm, hiss, hifl⟩

theorem handleDead_step {tr : String → String → String} {k : Nat} {s s' : AppState}
    {t : Nat} {e : UIEvent} (h : HandleDead k s) (hstep : step tr s t e = some s') :
    HandleDead k s' := by
  unfold step at hstep
  split at hstep
  · obtain ⟨hlt, htm, hiss, hifl⟩ := h
    exact handleDead_stepCore
      (show HandleDead k ({ s with now := t } : AppState) from ⟨hlt, htm, hiss, hifl⟩) hstep
  · exact absurd hstep (by simp)

theorem handleDead_runFrom {tr : String → String → String} {k : Nat} :
    ∀ {es : List (Nat × UIEvent)} {s s' : AppState},
      HandleDead k s → runFrom tr s es = some s' → HandleDead k s'
  | [], s, s', h, hr => by
      simp only [runFrom, Option.some.injEq] at hr
      exact hr ▸ h
  | (t, e) :: es, s, s', h, hr => by
      simp only [runFrom] at hr
      cases hstep : step tr s t e with
      | none => rw [hstep] at hr; exact absurd hr (by simp)
      | some s1 =>
          rw [hstep] at hr
          exact handleDead_runFrom (handleDead_step h hstep) hr

theorem timers_length_le_one {s : AppState} (h : TimerInv s) : s.timers.length ≤ 1 := by
  rcases h with h0 | ⟨tm, h1, _⟩
  · rw [h0]; exact Nat.zero_le 1
  · rw [h1]; exact Nat.le_refl 1

theorem step_queryChange {tr : String → String → String} {s : AppState} {t : Nat} (v : String)
    (hnow : s.now ≤ t) (hprompt : ∀ tm ∈ s.timers, t ≤ tm.fireAt) :
    step tr s t (.queryChange v) = some (onQueryChange { s with now := t } v) := by
  unfold step
  rw [if_pos ⟨hnow, hprompt⟩]
  rfl

theorem onQueryChange_issued (s : AppState) (v : String) :
    (onQueryChange s v).issued = s.issued := by
  unfold onQueryChange
  split
  · rfl
  · split <;> rfl

theorem onQueryChange_weatherInFlight (s : AppState) (v : String) :
    (onQueryChange s v).weatherInFlight = s.weatherInFlight := by
  unfold onQueryChange
  split
  · rfl
  · split <;> rfl

theorem onQueryChange_locationText (s : AppState) (v : String) :
    (onQueryChange s v).locationText = v := by
  unfold onQueryChange
  split
  · next h => exact h.symm
  · split <;> rfl

theorem step_timerFire_shape {tr : String → String → String} {s : AppState} {t id : Nat}
    {s' : AppState} (h : step tr s t (.timerFire id) = some s') :
    ∃ tm, tm ∈ s.timers ∧ tm.id = id ∧ tm.fireAt = t ∧
      s' = fireTimer { s with now := t } tm := by
  unfold step at h
  split at h
  · simp only [stepCore] at h
    cases hfind : List.find? (fun tm => tm.id = id) ({ s with now := t } : AppState).timers with
    | none => rw [hfind] at h; exact absurd h (by simp)
    | some tm =>
        rw [hfind] at h
        dsimp only at h
        by_cases hfa : tm.fireAt = ({ s with now := t } : AppState).now
        · rw [if_pos hfa] at h
          refine ⟨tm, List.mem_of_find?_eq_some hfind, ?_, hfa, (Option.some.inj h).symm⟩
          have := List.find?_some hfind
          simpa using this
        · rw [if_neg hfa] at h
          exact absurd h (by simp)
  · exact absurd h (by simp)

/-- C3: a query change to a string of trimmed length at most 3
synchronously clears the weather record and the fetching flag, cancels
any pending timer, and issues no request: the post state is exactly the
pre state with the new text, an empty record, a lowered flag and no
live timer; in particular the issue log is untouched. -/
theorem C3_short_query_clears (tr : String → String → String)
    (es : List (Nat × UIEvent)) (s : AppState) (t : Nat) (v : String)
    (hrun : run tr es = some s)
    (hshort : trimmedLength v ≤ 3) (hne : v ≠ s.locationText)
    (hnow : s.now ≤ t) (hprompt : ∀ tm ∈ s.timers, t ≤ tm.fireAt) :
    step tr s t (.queryChange v) =
      some { s with now := t, locationText := v, weatherData := none,
                    isFetchingWeather := false, timers := [] } := by
  have hinv := inv_run hrun
  rw [step_queryChange v hnow hprompt]
  unfold onQueryChange
  rw [if_neg hne, if_neg (Nat.not_lt.mpr hshort),
    clearDebounce_eq_nil (inv_setNow hinv t).1]

/-- C4: a query change to a string of trimmed length above 3, with no
further change in the quiet window, sets the fetching flag and clears
the weather record at scheduling time, issues nothing synchronously,
leaves exactly one live timer due 1500 ms (1.5 time units) after the
change, and that timer's firing issues exactly one lookup request,
at instant `t + 1500`, carrying the changed value. -/
theorem C4_settled_query_issues_once (tr : String → String → String)
    (es : List (Nat × UIEvent)) (s : AppState) (t : Nat) (v : String)
    (hrun : run tr es = some s)
    (hlong : 3 < trimmedLength v) (hne : v ≠ s.locationText)
    (hnow : s.now ≤ t) (hprompt : ∀ tm ∈ s.timers, t ≤ tm.fireAt) :
    ∃ s', step tr s t (.queryChange v) = some s' ∧
      s'.isFetchingWeather = true ∧ s'.weatherData = none ∧ s'.issued = s.issued ∧
      s'.timers = [⟨s.nextTimerId, t + 1500, v⟩] ∧
      ∃ s'', step tr s' (t + 1500) (.timerFire s.nextTimerId) = some s'' ∧
        s''.issued = s.issued ++ [⟨s.nextTimerId, t + 1500, v⟩] ∧
        s''.weatherInFlight = s.weatherInFlight ++ [⟨s.nextTimerId, v⟩] ∧
        s''.timers = [] := by
  have hinv := inv_run hrun
  have hs' : step tr s t (.queryChange v) =
      some { s with now := t, locationText := v, isFetchingWeather := true,
                    weatherData := none,
                    timers := [⟨s.nextTimerId, t + 1500, v⟩],
                    timeoutRef := some s.nextTimerId,
                    nextTimerId := s.nextTimerId + 1 } := by
    rw [step_queryChange v hnow hprompt]
    unfold onQueryChange
    rw [if_neg hne, if_pos hlong, clearDebounce_eq_nil (inv_setNow hinv t).1]
    rfl
  refine ⟨_, hs', rfl, rfl, rfl, rfl, ?_⟩
  have hs'' : step tr
      ({ s with now := t, locationText := v, isFetchingWeather := true,
                weatherData := none,
                timers := [⟨s.nextTimerId, t + 1500, v⟩],
                timeoutRef := some s.nextTimerId,
                nextTimerId := s.nextTimerId + 1 } : AppState)
      (t + 1500) (.timerFire s.nextTimerId) =
      some { s with now := t + 1500, locationText := v, isFetchingWeather := true,
                    weatherData := none,
                    timers := [],
                    timeoutRef := some s.nextTimerId,
                    nextTimerId := s.nextTimerId + 1,
                    weatherInFlight := s.weatherInFlight ++ [⟨s.nextTimerId, v⟩],
                    issued := s.issued ++ [⟨s.nextTimerId, t + 1500, v⟩] } := by
    unfold step
    rw [if_pos ⟨Nat.le_add_right t 1500, by
      intro tm hmem
      simp only [AppState.timers, List.mem_singleton] at hmem
      subst hmem
      exact Nat.le_refl _⟩]
    simp only [stepCore]
    rw [List.find?_cons_of_pos _ (by simp)]
    dsimp only
    rw [if_pos rfl]
    simp [fireTimer]
  exact ⟨_, hs'', rfl, rfl, rfl⟩

/-- A query change to a genuinely new value kills the pending timer's
handle for good: the handle is dead in the post state. -/
theorem handleDead_after_supersede {s : AppState} {tm : TimerEntry} {v : String}
    (hinv : Inv s) (htm : tm ∈ s.timers) (hne : v ≠ s.locationText) :
    HandleDead tm.id (onQueryChange s v) := by
  obtain ⟨htmi, hiss, hifl⟩ := hinv
  rcases htmi with h0 | ⟨tm0, h1, h2, h3, h4, h5, h6⟩
  · rw [h0] at htm; exact absurd htm (List.not_mem_nil tm)
  · rw [h1] at htm
    simp only [List.mem_singleton] at htm
    subst htm
    have hnil : clearDebounce s = [] :=
      clearDebounce_eq_nil (Or.inr ⟨tm, h1, h2, h3, h4, h5, h6⟩)
    unfold onQueryChange
    rw [if_neg hne, hnil]
    split
    · refine ⟨Nat.lt_succ_of_lt h4, ?_, h5, h6⟩
      intro x hx
      simp only [AppState.timers, List.nil_append, List.mem_singleton] at hx
      subst hx
      exact Nat.ne_of_gt h4
    · exact ⟨h4, fun x hx => absurd hx (by simp), h5, h6⟩

/-- C1: if a query change to a new value arrives strictly before the
pending timer elapses, the superseded timer is discarded for good: in
every continuation of the run, no `fetchLocationData` request tied to
that timer is ever logged or in flight, and a response event for it is
never valid, so no stale response for the superseded value can ever be
published over a newer weather record. -/
theorem C1_superseded_never_issued (tr : String → String → String)
    (es : List (Nat × UIEvent)) (s : AppState) (tm : TimerEntry)
    (t : Nat) (v : String) (es2 : List (Nat × UIEvent)) (s' s'' : AppState)
    (hrun : run tr es = some s) (htm : tm ∈ s.timers)
    (hne : v ≠ s.locationText) (hbefore : t < tm.fireAt)
    (hstep : step tr s t (.queryChange v) = some s')
    (hrest : runFrom tr s' es2 = some s'') :
    (∀ r ∈ s''.issued, r.timerId ≠ tm.id) ∧
    (∀ w ∈ s''.weatherInFlight, w.timerId ≠ tm.id) ∧
    (∀ t2 outcome, step tr s'' t2 (.weatherResponse tm.id outcome) = none) := by
  have hinv := inv_run hrun
  have hs' : s' = onQueryChange { s with now := t } v := by
    unfold step at hstep
    split at hstep
    · exact (Option.some.inj hstep).symm
    · exact absurd hstep (by simp)
  have hdead : HandleDead tm.id s' := by
    rw [hs']
    exact handleDead_after_supersede (inv_setNow hinv t) htm hne
  have hdead'' : HandleDead tm.id s'' := handleDead_runFrom hdead hrest
  obtain ⟨hlt, htm'', hiss'', hifl''⟩ := hdead''
  refine ⟨hiss'', hifl'', ?_⟩
  intro t2 outcome
  unfold step
  split
  · simp only [stepCore]
    rw [if_neg]
    intro hany
    rw [List.any_eq_true] at hany
    obtain ⟨w, hw, hwid⟩ := hany
    exact hifl'' w hw (by simpa using hwid)
  · rfl

theorem runFrom_append {tr : String → String → String} :
    ∀ {es1 es2 : List (Nat × UIEvent)} {s s' : AppState},
      runFrom tr s (es1 ++ es2) = some s' ↔
        ∃ s1, runFrom tr s es1 = some s1 ∧ runFrom tr s1 es2 = some s'
  | [], es2, s, s' => by simp [runFrom]
  | (t, e) :: es1, es2, s, s' => by
      simp only [List.cons_append, runFrom]
      cases hstep : step tr s t e with
      | none => simp
      | some s1 => simpa using @runFrom_append tr es1 es2 s1 s'

/-- A burst consisting purely of query changes issues no request and
settles the location text at the burst's last value. -/
theorem runFrom_queryChanges {tr : String → String → String} :
    ∀ (qs : List (Nat × String)) {s s' : AppState},
      runFrom tr s (qs.map (fun p => (p.1, UIEvent.queryChange p.2))) = some s' →
      s'.issued = s.issued ∧ s'.weatherInFlight = s.weatherInFlight
  | [], s, s', h => by
      simp only [List.map_nil, runFrom, Option.some.injEq] at h
      exact h ▸ ⟨rfl, rfl⟩
  | (t, v) :: qs, s, s', h => by
      simp only [List.map_cons, runFrom] at h
      cases hstep : step tr s t (.queryChange v) with
      | none => rw [hstep] at h; exact absurd h (by simp)
      | some s1 =>
          rw [hstep] at h
          have hs1 : s1 = onQueryChange { s with now := t } v := by
            unfold step at hstep
            split at hstep
            · exact (Option.some.inj hstep).symm
            · exact absurd hstep (by simp)
          have hrec := runFrom_queryChanges qs h
          rw [hrec.1, hrec.2, hs1, onQueryChange_issued, onQueryChange_weatherInFlight]
          exact ⟨rfl, rfl⟩

/-- C2: in every reachable state at most one debounce timer is live;
and after any burst of query changes ending in the value `vN`, no
request has been issued during the burst, at most one timer is live,
any live timer carries the final value `vN`, and a subsequent timer
firing issues exactly one request, for `vN`. -/
theorem C2_at_most_one_timer_one_request (tr : String → String → String)
    (es : List (Nat × UIEvent)) (s : AppState) (hrun : run tr es = some s) :
    s.timers.length ≤ 1 ∧
    ∀ (qs : List (Nat × String)) (tN : Nat) (vN : String) (s' : AppState),
      runFrom tr s ((qs ++ [(tN, vN)]).map (fun p => (p.1, UIEvent.queryChange p.2))) =
        some s' →
      s'.issued = s.issued ∧ s'.locationText = vN ∧ s'.timers.length ≤ 1 ∧
      (∀ tm ∈ s'.timers, tm.query = vN) ∧
      (∀ t2 id s'', step tr s' t2 (.timerFire id) = some s'' →
        s''.issued = s.issued ++ [⟨id, t2, vN⟩] ∧
        s''.weatherInFlight = s.weatherInFlight ++ [⟨id, vN⟩]) := by
  have hinv := inv_run hrun
  refine ⟨timers_length_le_one hinv.1, ?_⟩
  intro qs tN vN s' hburst
  have hloc : s'.locationText = vN := by
    rw [List.map_append] at hburst
    obtain ⟨s1, _, hlast⟩ := runFrom_append.mp hburst
    simp only [List.map_cons, List.map_nil, runFrom] at hlast
    cases hstep : step tr s1 tN (.queryChange vN) with
    | none => rw [hstep] at hlast; exact absurd hlast (by simp)
    | some s2 =>
        rw [hstep] at hlast
        simp only [runFrom, Option.some.injEq] at hlast
        subst hlast
        have hs2 : s2 = onQueryChange { s1 with now := tN } vN := by
          unfold step at hstep
          split at hstep
          · exact (Option.some.inj hstep).symm
          · exact absurd hstep (by simp)
        rw [hs2, onQueryChange_locationText]
  have hpres := runFrom_queryChanges (qs ++ [(tN, vN)]) hburst
  have hinv' : Inv s' := inv_runFrom hinv hburst
  refine ⟨hpres.1, hloc, timers_length_le_one hinv'.1, ?_, ?_⟩
  · intro tm hmem
    rcases hinv'.1 with h0 | ⟨tm0, h1, _, h3, _⟩
    · rw [h0] at hmem; exact absurd hmem (List.not_mem_nil tm)
    · rw [h1] at hmem
      simp only [List.mem_singleton] at hmem
      subst hmem
      rw [h3, hloc]
  · intro t2 id s'' hfire
    obtain ⟨tm, hmem, hid, hfa, hs''⟩ := step_timerFire_shape hfire
    have hq : tm.query = vN := by
      rcases hinv'.1 with h0 | ⟨tm0, h1, _, h3, _⟩
      · rw [h0] at hmem; exact absurd hmem (List.not_mem_nil tm)
      · rw [h1] at hmem
        simp only [List.mem_singleton] at hmem
        subst hmem
        rw [h3, hloc]
    subst hs''
    unfold fireTimer
    constructor
    · simp only [AppState.issued]
      rw [hpres.1, hid, hq]
    · simp only [AppState.weatherInFlight]
      rw [hpres.2, hid, hq]

theorem step_queryChange_inv {tr : String → String → String} {s : AppState} {t : Nat}
    {v : String} {s' : AppState} (h : step tr s t (.queryChange v) = some s') :
    s' = onQueryChange { s with now := t } v := by
  unfold step at h
  split at h
  · exact (Option.some.inj h).symm
  · exact absurd h (by simp)

theorem step_weatherResponse_inv {tr : String → String → String} {s : AppState}
    {t id : Nat} {outcome : Except JSError WeatherData} {s' : AppState}
    (h : step tr s t (.weatherResponse id outcome) = some s') :
    s' = onWeatherResponse { s with now := t } id outcome := by
  unfold step at h
  split at h
  · simp only [stepCore] at h
    split at h
    · exact (Option.some.inj h).symm
    · exact absurd h (by simp)
  · exact absurd h (by simp)

/-- C5 counterexample: after the single change to "Mumbai" the fetching
flag is already true, yet the issue log and the set of in-flight
requests are both empty: no lookup request for the current query has
been issued at all (the request only goes out when the timer fires
1500 ms later), so the flag is not "true exactly while a resolution
request is in flight for the current query". -/
theorem C5_counterexample :
    (run idTr [(0, UIEvent.queryChange "Mumbai")]).map
      (fun s => (s.isFetchingWeather, s.issued, s.weatherInFlight)) =
      some (true, [], []) := by
  decide

/-- C5 amended: the fetching flag is raised by a resolvable query
change at scheduling time, before any request is issued (the in-flight
set and the issue log are unchanged at that moment), and it is lowered
by every sub-threshold change and by every completion of an in-flight
lookup; it is not equivalent to a request being in flight. -/
theorem C5_amended_fetch_flag_transitions (tr : String → String → String)
    (s : AppState) (t : Nat) :
    (∀ v s', 3 < trimmedLength v → v ≠ s.locationText →
      step tr s t (.queryChange v) = some s' →
      s'.isFetchingWeather = true ∧ s'.weatherInFlight = s.weatherInFlight ∧
        s'.issued = s.issued) ∧
    (∀ v s', trimmedLength v ≤ 3 → v ≠ s.locationText →
      step tr s t (.queryChange v) = some s' →
      s'.isFetchingWeather = false) ∧
    (∀ id outcome s', step tr s t (.weatherResponse id outcome) = some s' →
      s'.isFetchingWeather = false) := by
  refine ⟨?_, ?_, ?_⟩
  · intro v s' hlong hne hstep
    rw [step_queryChange_inv hstep]
    unfold onQueryChange
    rw [if_neg hne, if_pos hlong]
    exact ⟨rfl, rfl, rfl⟩
  · intro v s' hshort hne hstep
    rw [step_queryChange_inv hstep]
    unfold onQueryChange
    rw [if_neg hne, if_neg (Nat.not_lt.mpr hshort)]
  · intro id outcome s' hstep
    rw [step_weatherResponse_inv hstep]
    unfold onWeatherResponse
    cases outcome <;> rfl

/-- C6: settling an in-flight lookup successfully publishes the
service's payload verbatim as the weather record and lowers the
fetching flag; with the flag true beforehand this is the true-to-false
transition.  Instantiated by its witness at the "loam" payload of the
spec. -/
theorem C6_success_publishes_payload (tr : String → String → String)
    (s : AppState) (t id : Nat) (data : WeatherData)
    (hin : s.weatherInFlight.any (fun r => r.timerId = id) = true)
    (hfetch : s.isFetchingWeather = true)
    (hnow : s.now ≤ t) (hprompt : ∀ tm ∈ s.timers, t ≤ tm.fireAt) :
    ∃ s', step tr s t (.weatherResponse id (Except.ok data)) = some s' ∧
      s'.weatherData = some data ∧ s'.isFetchingWeather = false := by
  unfold step
  rw [if_pos ⟨hnow, hprompt⟩]
  simp only [stepCore]
  rw [if_pos
    (show (({ s with now := t } : AppState).weatherInFlight.any
      (fun r => r.timerId = id)) = true from hin)]
  exact ⟨_, rfl, rfl, rfl⟩

/-- C7: settling an in-flight lookup with a failure leaves an empty
weather record empty, lowers the fetching flag (true-to-false with the
flag up beforehand), and surfaces nothing: the step is defined (the
catch block swallows the error, modelled by the total error branch of
`onWeatherResponse`) and the shared result slot and loading flag are
untouched. -/
theorem C7_failure_swallowed (tr : String → String → String)
    (s : AppState) (t id : Nat) (e : JSError)
    (hin : s.weatherInFlight.any (fun r => r.timerId = id) = true)
    (hfetch : s.isFetchingWeather = true)
    (hempty : s.weatherData = none)
    (hnow : s.now ≤ t) (hprompt : ∀ tm ∈ s.timers, t ≤ tm.fireAt) :
    ∃ s', step tr s t (.weatherResponse id (Except.error e)) = some s' ∧
      s'.weatherData = none ∧ s'.isFetchingWeather = false ∧
      s'.result = s.result ∧ s'.isLoading = s.isLoading := by
  unfold step
  rw [if_pos ⟨hnow, hprompt⟩]
  simp only [stepCore]
  rw [if_pos
    (show (({ s with now := t } : AppState).weatherInFlight.any
      (fun r => r.timerId = id)) = true from hin)]
  exact ⟨_, rfl, hempty, rfl, rfl, rfl⟩

/-- C8: a failing one-shot action writes into the result slot exactly
the localized category label (`adviceError` for crop advice,
`photoError` for photo analysis), a space and newline, the localized
`details` label, a colon, and then the raw error message when the
thrown value is an `Error` object carrying one, or the localized
`unknownError` fallback exactly when the thrown value is not an
`Error` object (and so lacks a `message`); the loading flag is
lowered. -/
theorem C8_failure_formats_result (tr : String → String → String)
    (s : AppState) (t : Nat)
    (hnow : s.now ≤ t) (hprompt : ∀ tm ∈ s.timers, t ≤ tm.fireAt) :
    (∀ m : String, s.adviceInFlight ≠ 0 →
      ∃ s', step tr s t (.adviceComplete (.error (.errObj m))) = some s' ∧
        s'.result = some (tr s.language "adviceError" ++ " \n" ++
          tr s.language "details" ++ ": " ++ m) ∧ s'.isLoading = false) ∧
    (s.adviceInFlight ≠ 0 →
      ∃ s', step tr s t (.adviceComplete (.error .nonError)) = some s' ∧
        s'.result = some (tr s.language "adviceError" ++ " \n" ++
          tr s.language "details" ++ ": " ++ tr s.language "unknownError") ∧
        s'.isLoading = false) ∧
    (∀ m : String, s.photoInFlight ≠ 0 →
      ∃ s', step tr s t (.photoComplete (.error (.errObj m))) = some s' ∧
        s'.result = some (tr s.language "photoError" ++ " \n" ++
          tr s.language "details" ++ ": " ++ m) ∧ s'.isLoading = false) ∧
    (s.photoInFlight ≠ 0 →
      ∃ s', step tr s t (.photoComplete (.error .nonError)) = some s' ∧
        s'.result = some (tr s.language "photoError" ++ " \n" ++
          tr s.language "details" ++ ": " ++ tr s.language "unknownError") ∧
        s'.isLoading = false) := by
  refine ⟨?_, ?_, ?_, ?_⟩
  · intro m hfl
    unfold step
    rw [if_pos ⟨hnow, hprompt⟩]
    simp only [stepCore]
    rw [if_pos (show (({ s with now := t } : AppState).adviceInFlight ≠ 0) from hfl)]
    exact ⟨_, rfl, rfl, rfl⟩
  · intro hfl
    unfold step
    rw [if_pos ⟨hnow, hprompt⟩]
    simp only [stepCore]
    rw [if_pos (show (({ s with now := t } : AppState).adviceInFlight ≠ 0) from hfl)]
    exact ⟨_, rfl, rfl, rfl⟩
  · intro m hfl
    unfold step
    rw [if_pos ⟨hnow, hprompt⟩]
    simp only [stepCore]
    rw [if_pos (show (({ s with now := t } : AppState).photoInFlight ≠ 0) from hfl)]
    exact ⟨_, rfl, rfl, rfl⟩
  · intro hfl
    unfold step
    rw [if_pos ⟨hnow, hprompt⟩]
    simp only [stepCore]
    rw [if_pos (show (({ s with now := t } : AppState).photoInFlight ≠ 0) from hfl)]
    exact ⟨_, rfl, rfl, rfl⟩

/-- C9 counterexample: a reachable run in which two crop-advice
requests are simultaneously in flight.  The first advice click puts one
request in flight and raises `isLoading`; the voice toggle (disabled
only by `isConnecting`, not by `isLoading`) starts a session, and the
session's final-response callback lowers `isLoading` while the advice
request is still pending, so a second advice click passes the disabled
gate and issues a second request of the same flow. -/
theorem C9_counterexample :
    (run idTr [(0, UIEvent.queryChange "Mumbai"), (1500, UIEvent.timerFire 0),
      (1501, UIEvent.weatherResponse 0 (Except.ok loamPayload)),
      (1502, UIEvent.clickAdvice), (1503, UIEvent.clickVoiceToggle),
      (1504, UIEvent.voiceFinalResponse "done"),
      (1505, UIEvent.clickAdvice)]).map
      (fun s => (s.adviceInFlight, s.isLoading)) = some (2, true) := by
  decide

/-- C9 amended: while the loading flag is up, a click on either
one-shot control is not delivered (the buttons carry
`disabled={isLoading}`) and issues no request: the step is a complete
no-op up to the clock.  The unreachability of two simultaneous
same-flow requests claimed beyond this fails, because the voice flow's
final-response callback lowers the shared loading flag while a one-shot
request is still pending. -/
theorem C9_amended_loading_blocks_clicks (tr : String → String → String)
    (s : AppState) (t : Nat) (hload : s.isLoading = true)
    (hnow : s.now ≤ t) (hprompt : ∀ tm ∈ s.timers, t ≤ tm.fireAt) :
    step tr s t .clickAdvice = some { s with now := t } ∧
    step tr s t .clickPhoto = some { s with now := t } := by
  constructor
  · unfold step
    rw [if_pos ⟨hnow, hprompt⟩]
    simp only [stepCore]
    unfold onClickAdvice
    rw [if_pos (show (({ s with now := t } : AppState).isLoading = true) from hload)]
  · unfold step
    rw [if_pos ⟨hnow, hprompt⟩]
    simp only [stepCore]
    unfold onClickPhoto
    rw [if_pos (show (({ s with now := t } : AppState).isLoading = true) from hload)]

/-- C10: a one-shot handler whose data precondition is unmet is a
complete no-op: a crop-advice click with an empty weather record, and a
photo-analysis click with no selected image, issue no request and leave
every component field (result slot, loading flag, weather state,
timers, logs) unchanged — the post state is the pre state up to the
clock. -/
theorem C10_unmet_precondition_noop (tr : String → String → String)
    (s : AppState) (t : Nat)
    (hnow : s.now ≤ t) (hprompt : ∀ tm ∈ s.timers, t ≤ tm.fireAt) :
    (s.weatherData = none → step tr s t .clickAdvice = some { s with now := t }) ∧
    (s.imageFile = none → step tr s t .clickPhoto = some { s with now := t }) := by
  constructor
  · intro hw
    unfold step
    rw [if_pos ⟨hnow, hprompt⟩]
    simp only [stepCore]
    unfold onClickAdvice
    by_cases hl : (({ s with now := t } : AppState).isLoading = true)
    · rw [if_pos hl]
    · rw [if_neg hl,
        if_pos (show (({ s with now := t } : AppState).weatherData = none) from hw)]
  · intro hf
    unfold step
    rw [if_pos ⟨hnow, hprompt⟩]
    simp only [stepCore]
    unfold onClickPhoto
    by_cases hl : (({ s with now := t } : AppState).isLoading = true)
    · rw [if_pos hl]
    · rw [if_neg hl,
        if_pos (show (({ s with now := t } : AppState).imageFile = none) from hf)]

/-- The state reached from mount by typing "Mumbai" at instant 0: the
fetching flag is up and one timer is live, due at 1500. -/
def mumbaiState : AppState :=
  { initState with locationText := "Mumbai", isFetchingWeather := true,
                   timers := [⟨0, 1500, "Mumbai"⟩], timeoutRef := some 0,
                   nextTimerId := 1 }

/-- The state reached from `mumbaiState` by typing "Pune City" at
instant 100, superseding the pending "Mumbai" timer. -/
def puneState : AppState :=
  { mumbaiState with now := 100, locationText := "Pune City",
                     timers := [⟨1, 1600, "Pune City"⟩], timeoutRef := some 1,
                     nextTimerId := 2 }

/-- The state reached from mount by the burst "ab" at 3 then "Mumbai"
at 10: a single timer is live, due at 1510. -/
def burstState : AppState :=
  { initState with now := 10, locationText := "Mumbai", isFetchingWeather := true,
                   timers := [⟨0, 1510, "Mumbai"⟩], timeoutRef := some 0,
                   nextTimerId := 1 }

/-- `burstState` after the timer fires at 1510: one request issued, in
flight, no live timer. -/
def burstFiredState : AppState :=
  { burstState with now := 1510, timers := [],
                    weatherInFlight := [⟨0, "Mumbai"⟩],
                    issued := [⟨0, 1510, "Mumbai"⟩] }

/-- A state with one lookup request in flight for "Mumbai" and the
fetching flag up. -/
def inFlightState : AppState :=
  { initState with locationText := "Mumbai", isFetchingWeather := true,
                   weatherInFlight := [⟨0, "Mumbai"⟩], nextTimerId := 1 }

/-- A state with one advice request and one photo request pending and
the loading flag up. -/
def actionsPendingState : AppState :=
  { initState with isLoading := true, adviceInFlight := 1, photoInFlight := 1 }

/-- A state whose only peculiarity is a raised loading flag. -/
def loadingState : AppState :=
  { initState with isLoading := true }

/-- Witness for C1 at the concrete run that types "Mumbai", supersedes
it with "Pune City" at instant 100 (before the timer's 1500), and
continues with no further events. -/
theorem C1_witness :
    ((⟨0, 1500, "Mumbai"⟩ : TimerEntry) ∈ mumbaiState.timers) ∧
    (100 < 1500) ∧
    (∀ r ∈ puneState.issued, r.timerId ≠ 0) ∧
    (∀ w ∈ puneState.weatherInFlight, w.timerId ≠ 0) ∧
    (∀ t2 outcome, step idTr puneState t2 (.weatherResponse 0 outcome) = none) :=
  ⟨by decide, by decide,
    C1_superseded_never_issued idTr [(0, UIEvent.queryChange "Mumbai")] mumbaiState
      ⟨0, 1500, "Mumbai"⟩ 100 "Pune City" [] puneState puneState
      (by decide) (by decide) (by decide) (by decide) (by decide) rfl⟩

/-- Witness for C2 at the concrete burst "ab" at 3 then "Mumbai" at 10,
firing the surviving timer at 1510: one request, for the final value. -/
theorem C2_witness :
    burstState.locationText = "Mumbai" ∧ burstState.timers.length ≤ 1 ∧
    burstFiredState.issued = initState.issued ++ [⟨0, 1510, "Mumbai"⟩] ∧
    burstFiredState.weatherInFlight = initState.weatherInFlight ++ [⟨0, "Mumbai"⟩] := by
  have h := C2_at_most_one_timer_one_request idTr [] initState rfl
  have h2 := h.2 [(3, "ab")] 10 "Mumbai" burstState (by decide)
  have h3 := h2.2.2.2.2 1510 0 burstFiredState (by decide)
  exact ⟨h2.2.1, h2.2.2.1, h3.1, h3.2⟩

/-- Witness for C3 at the sub-threshold change to "Mu" from mount. -/
theorem C3_witness :
    trimmedLength "Mu" ≤ 3 ∧
    step idTr initState 5 (.queryChange "Mu") =
      some { initState with now := 5, locationText := "Mu", weatherData := none,
                            isFetchingWeather := false, timers := [] } :=
  ⟨by decide,
    C3_short_query_clears idTr [] initState 5 "Mu" rfl (by decide) (by decide)
      (by decide) (by decide)⟩

/-- Witness for C4 at the change to "Mumbai" at instant 7 from mount:
the single request goes out at 1507. -/
theorem C4_witness :
    3 < trimmedLength "Mumbai" ∧
    (∃ s', step idTr initState 7 (.queryChange "Mumbai") = some s' ∧
      s'.isFetchingWeather = true ∧ s'.weatherData = none ∧
      s'.issued = initState.issued ∧
      s'.timers = [⟨initState.nextTimerId, 7 + 1500, "Mumbai"⟩] ∧
      ∃ s'', step idTr s' (7 + 1500) (.timerFire initState.nextTimerId) = some s'' ∧
        s''.issued = initState.issued ++ [⟨initState.nextTimerId, 7 + 1500, "Mumbai"⟩] ∧
        s''.weatherInFlight = initState.weatherInFlight ++
          [⟨initState.nextTimerId, "Mumbai"⟩] ∧
        s''.timers = []) :=
  ⟨by decide,
    C4_settled_query_issues_once idTr [] initState 7 "Mumbai" rfl (by decide)
      (by decide) (by decide) (by decide)⟩

/-- Witness for the amended C5 at the change to "Mumbai" from mount:
the flag goes up while the in-flight set and issue log are unchanged. -/
theorem C5_amended_witness :
    3 < trimmedLength "Mumbai" ∧
    (mumbaiState.isFetchingWeather = true ∧
      mumbaiState.weatherInFlight = initState.weatherInFlight ∧
      mumbaiState.issued = initState.issued) := by
  have h := C5_amended_fetch_flag_transitions idTr initState 0
  exact ⟨by decide, h.1 "Mumbai" mumbaiState (by decide) (by decide) (by decide)⟩

/-- Witness for C6 at the spec's "loam" payload. -/
theorem C6_witness :
    inFlightState.isFetchingWeather = true ∧
    (∃ s', step idTr inFlightState 1600 (.weatherResponse 0 (Except.ok loamPayload)) =
        some s' ∧
      s'.weatherData = some loamPayload ∧ s'.isFetchingWeather = false) :=
  ⟨rfl,
    C6_success_publishes_payload idTr inFlightState 1600 0 loamPayload
      (by decide) rfl (by decide) (by decide)⟩

/-- Witness for C7 at a failing lookup for "Mumbai". -/
theorem C7_witness :
    inFlightState.weatherData = none ∧
    (∃ s', step idTr inFlightState 1700
        (.weatherResponse 0 (Except.error (.errObj "network failure"))) = some s' ∧
      s'.weatherData = none ∧ s'.isFetchingWeather = false ∧
      s'.result = inFlightState.result ∧ s'.isLoading = inFlightState.isLoading) :=
  ⟨rfl,
    C7_failure_swallowed idTr inFlightState 1700 0 (.errObj "network failure")
      (by decide) rfl rfl (by decide) (by decide)⟩

/-- Witness for C8: a failing advice call with an `Error` carrying
"boom" and a failing photo flow with a thrown non-`Error` value. -/
theorem C8_witness :
    actionsPendingState.adviceInFlight ≠ 0 ∧
    (∃ s', step idTr actionsPendingState 0 (.adviceComplete (.error (.errObj "boom"))) =
        some s' ∧
      s'.result = some (idTr actionsPendingState.language "adviceError" ++ " \n" ++
        idTr actionsPendingState.language "details" ++ ": " ++ "boom") ∧
      s'.isLoading = false) ∧
    (∃ s', step idTr actionsPendingState 0 (.photoComplete (.error .nonError)) =
        some s' ∧
      s'.result = some (idTr actionsPendingState.language "photoError" ++ " \n" ++
        idTr actionsPendingState.language "details" ++ ": " ++
        idTr actionsPendingState.language "unknownError") ∧
      s'.isLoading = false) := by
  have h := C8_failure_formats_result idTr actionsPendingState 0 (by decide) (by decide)
  exact ⟨by decide, h.1 "boom" (by decide), h.2.2.2 (by decide)⟩

/-- Witness for the amended C9: with the loading flag up, clicks on
both one-shot controls are no-ops up to the clock. -/
theorem C9_amended_witness :
    loadingState.isLoading = true ∧
    step idTr loadingState 4 .clickAdvice = some { loadingState with now := 4 } ∧
    step idTr loadingState 4 .clickPhoto = some { loadingState with now := 4 } := by
  have h := C9_amended_loading_blocks_clicks idTr loadingState 4 rfl (by decide) (by decide)
  exact ⟨rfl, h.1, h.2⟩

/-- Witness for C10 at the mounted state, where neither precondition
holds: both clicks are no-ops up to the clock. -/
theorem C10_witness :
    initState.weatherData = none ∧ initState.imageFile = none ∧
    step idTr initState 2 .clickAdvice = some { initState with now := 2 } ∧
    step idTr initState 2 .clickPhoto = some { initState with now := 2 } := by
  have h := C10_unmet_precondition_noop idTr initState 2 (by decide) (by decide)
  exact ⟨rfl, rfl, h.1 rfl, h.2 rfl⟩

end AgroSmart
